import Mathlib

/-!
# Verification of the LangPilot agent core

Shallow embedding of the agent turn loop of the LangPilot repository:
the message store (`src/app/agent/memory.py`), the progress emitter and
turn coordinator (`src/app/agent/runner.py`), and the monolithic entry
point's final-answer computation (`src/main.py`).

Python strings are modelled as Lean `String` (Python `str.strip` as
`pyStrip`, `str.lower` as `pyLower`, slicing `s[:n]` as `pyTake`, all
structurally recursive over the character list). Python dicts keyed by
strings are modelled as
association lists. A message's `content` attribute is modelled after the
coercion `str(content)` that the source applies, i.e. as a `String`.
The concurrent polling loop of `run_agent` is modelled sequentially: each
poll iteration observes a snapshot of the thread's message list, and the
executor's completion supplies the final snapshot together with either a
result dictionary or a raised error.
-/

namespace LangPilot

/-- A conversation message as the renderer sees it: the `type` and `role`
attributes (missing attributes and `None` are modelled as `""`, matching
the source's `(getattr(msg, ..., "") or "")`), and the `content` attribute
already coerced to text. -/
structure Message where
  type : String
  role : String
  content : String
deriving DecidableEq, Repr

/-- Python `s[:n]` on a `str`: the first `n` characters (code points). -/
def pyTake (s : String) (n : Nat) : String :=
  ⟨s.data.take n⟩

/-- Python `s.lower()`: lowercase each character. -/
def pyLower (s : String) : String :=
  ⟨s.data.map Char.toLower⟩

/-- Python `s.strip()`: drop leading and trailing whitespace. -/
def pyStrip (s : String) : String :=
  ⟨((s.data.dropWhile Char.isWhitespace).reverse.dropWhile
      Char.isWhitespace).reverse⟩

/-- Association-list lookup, modelling Python `dict` lookup /
`dict.get(key)` for string keys. -/
def alookup {α : Type} : List (String × α) → String → Option α
  | [], _ => none
  | (k', v) :: rest, k => if k' = k then some v else alookup rest k

/-- Association-list update, modelling Python `dict[key] = value`. -/
def aupdate {α : Type} : List (String × α) → String → α → List (String × α)
  | [], k, v => [(k, v)]
  | (k', v') :: rest, k, v =>
    if k' = k then (k, v) :: rest else (k', v') :: aupdate rest k v

/-- Association-list removal, modelling deletion of a key. -/
def aremove {α : Type} : List (String × α) → String → List (String × α)
  | [], _ => []
  | (k', v) :: rest, k =>
    if k' = k then aremove rest k else (k', v) :: aremove rest k

/-- Role classification of `src/app/agent/runner.py` lines 42-47, applied
to the lowercased `role` and `type` attributes:
`if msg_role == "system" or msg_type == "system": "系统提示"`,
`elif msg_role == "user" or msg_type in ("human", "user"): "用户输入"`,
`else "模型响应"`. -/
def role_label_of (msg_role msg_type : String) : String :=
  if msg_role = "system" ∨ msg_type = "system" then "系统提示"
  else if msg_role = "user" ∨ msg_type = "human" ∨ msg_type = "user" then "用户输入"
  else "模型响应"

/-- The role label computed for a message (runner.py lines 39-47):
both attributes are lowercased first. -/
def classify (m : Message) : String :=
  role_label_of (pyLower m.role) (pyLower m.type)

/-- The label actually displayed (runner.py line 54):
`label = role_label or (msg_role or msg_type or "消息")`, with Python
string truthiness. -/
def display_label (m : Message) : String :=
  let rl := classify m
  if rl ≠ "" then rl
  else if pyLower m.role ≠ "" then pyLower m.role
  else if pyLower m.type ≠ "" then pyLower m.type
  else "消息"

/-- Rendering of one message in the drain loop (runner.py lines 49-57):
coerce content to text, strip it, skip if empty, otherwise print
`"\n[label]\npreview suffix"` where `preview = content[:2000]` and the
truncation marker is appended iff `len(content) > 2000`. -/
def render_message (m : Message) : Option String :=
  let content := pyStrip m.content
  if content = "" then none
  else
    some ("\n[" ++ display_label m ++ "]\n" ++ pyTake content 2000 ++
      (if 2000 < content.length then "...（已截断）" else ""))

/-- The cursor clamping of `_emit_new_messages` (runner.py lines 27-30):
`if start_idx < 0: start_idx = 0; if start_idx > total: start_idx = total`. -/
def clampCursor (c : Int) (total : Nat) : Nat :=
  if c < 0 then 0
  else if (total : Int) < c then total
  else c.toNat

/-- The value returned by one drain call, plus the observable effects:
the lines printed (`output`) and the 0-based indices of the messages the
rendering loop iterated over (`indices`; the loop advances past
empty-content messages without printing, so `indices` covers every index
the call consumed, rendered or skipped). -/
structure DrainResult where
  new_cursor : Int
  trace_started : Bool
  did_emit : Bool
  output : List String
  indices : List Nat
deriving DecidableEq, Repr

/-- `_emit_new_messages` of runner.py (lines 24-59), with the per-thread
message list already fetched: clamp the cursor, return early with
`did_emit = False` when nothing is new, otherwise print the trace header
once and render each message from the clamped cursor on, in index order. -/
def emit_new_messages (messages : List Message) (start_idx : Int)
    (trace_started : Bool) : DrainResult :=
  let total := messages.length
  let s := clampCursor start_idx total
  if total ≤ s then
    ⟨(total : Int), trace_started, false, [], []⟩
  else
    let header := if trace_started then [] else ["\n📜 === 执行过程 ==="]
    ⟨(total : Int), true, true,
      header ++ (messages.drop s).filterMap render_message,
      List.range' s (total - s)⟩

/-- The drain entry point over a thread-keyed view of the message store:
`_emit_new_messages` first calls `get_messages(thread_id)` (runner.py
line 25). -/
def drain (store : String → List Message) (thread_id : String)
    (cursor : Int) (trace_started : Bool) : DrainResult :=
  emit_new_messages (store thread_id) cursor trace_started

/-! ## Message store (`src/app/agent/memory.py`) -/

/-- The `channel_values` dictionary of a checkpoint: `messages` is the
value of its `"messages"` key, if present. -/
structure ChannelValues where
  messages : Option (List Message)
deriving DecidableEq

/-- A langgraph checkpoint as `memory.py` reads it: `channel_values` is
the value of the checkpoint's `"channel_values"` key, if present. -/
structure Checkpoint where
  channel_values : Option ChannelValues
deriving DecidableEq

/-- `get_messages` of memory.py (lines 41-49) over an abstract
checkpointer read `ckpt_get` that may fail (`Except`) or find no
checkpoint (`Option`): exceptions and a missing checkpoint both yield
`[]`; otherwise the source evaluates
`checkpoint.get("channel_values", {}).get("messages", []) or []`. -/
def get_messages (ckpt_get : String → Except String (Option Checkpoint))
    (thread_id : String) : List Message :=
  match ckpt_get thread_id with
  | .error _ => []
  | .ok none => []
  | .ok (some c) => ((c.channel_values.getD ⟨none⟩).messages).getD []

/-- The process-wide state the agent core mutates: the checkpointer's
thread-keyed checkpoints (`memory_checkpointer` in memory.py) and the
runner's `_history_offsets` dictionary (runner.py line 11). -/
structure SysState where
  checkpoints : List (String × Checkpoint)
  offsets : List (String × Int)
deriving DecidableEq

/-- Modelled from the spec: the checkpointer's `delete` operation lives in
the external langgraph library, not in this repository. Per the spec's
Message Store contract, `clear` removes the thread's recorded state and
fails (raises) when the thread has no recorded state. -/
def checkpointer_delete (store : List (String × Checkpoint))
    (thread_id : String) : Except String (List (String × Checkpoint)) :=
  if (alookup store thread_id).isSome then .ok (aremove store thread_id)
  else .error "thread not found"

/-- `clear_memory` of memory.py (lines 9-15): call the checkpointer's
`delete` inside `try`; on success print the success message, on exception
print the failure message and continue. The returned `Bool` is `true` for
the success message, `false` for the failure message. The
`_history_offsets` dictionary is not visible to memory.py and is left
untouched. -/
def clear_memory (s : SysState) (thread_id : String) : SysState × Bool :=
  match checkpointer_delete s.checkpoints thread_id with
  | .ok st => ({ s with checkpoints := st }, true)
  | .error _ => (s, false)

/-- Reading the checkpointer state as the `ckpt_get` function consumed by
`get_messages`: an in-memory lookup that does not raise. -/
def store_get (checkpoints : List (String × Checkpoint)) :
    String → Except String (Option Checkpoint) :=
  fun thread_id => .ok (alookup checkpoints thread_id)

/-! ## Turn coordination (`src/app/agent/runner.py` `run_agent`) -/

/-- The executor's result dictionary: `messages` is the value of its
`"messages"` key if present, `output` the value of its `"output"` key if
present, and `raw` models `str(result)`, the coercion of the whole
dictionary to text. -/
structure PyResult where
  messages : Option (List Message)
  output : Option String
  raw : String
deriving DecidableEq

/-- Python `result["messages"][-1]` guarded by `len(...) > 0`: the content
of the last message (`getattr(final_msg, "content", str(final_msg))`,
which is the `content` attribute in this model). -/
def py_last_content (ms : List Message) : String :=
  match ms.getLast? with
  | some m => m.content
  | none => ""

/-- The final-answer computation of the decomposed runner
(runner.py lines 101-108): last message's content stripped when the
result has a non-empty `"messages"` list, else
`result.get("output", str(result)).strip()`. -/
def runner_final_output (result : PyResult) : String :=
  match result.messages with
  | some ms =>
    if 0 < ms.length then pyStrip (py_last_content ms)
    else pyStrip (result.output.getD result.raw)
  | none => pyStrip (result.output.getD result.raw)

/-- The final-answer computation of the monolithic entry point
(src/main.py lines 484-488): textually the same rule as the runner's. -/
def main_final_output (result : PyResult) : String :=
  match result.messages with
  | some ms =>
    if 0 < ms.length then pyStrip (py_last_content ms)
    else pyStrip (result.output.getD result.raw)
  | none => pyStrip (result.output.getD result.raw)

/-- Outcome of the executor worker thread (`_invoke_agent`, runner.py
lines 14-21): either `container["result"]` or `container["error"]`. -/
inductive ExecOutcome where
  | err (e : String)
  | ok (result : PyResult)
deriving DecidableEq

/-- Accumulated effect of the polling loop (runner.py lines 83-89):
cursor and trace flag threaded through the drains, plus all printed
lines and all consumed message indices, in order. -/
structure PollResult where
  cursor : Int
  trace_started : Bool
  output : List String
  indices : List Nat
deriving DecidableEq

/-- The polling loop of `run_agent` (runner.py lines 83-89), modelled
sequentially: each iteration observes one snapshot of the thread's
message list and drains it, threading `start_idx` and `trace_started`. -/
def pollLoop : List (List Message) → Int → Bool → PollResult
  | [], c, ts => ⟨c, ts, [], []⟩
  | snap :: rest, c, ts =>
    let r := emit_new_messages snap c ts
    let p := pollLoop rest r.new_cursor r.trace_started
    ⟨p.cursor, p.trace_started, r.output ++ p.output, r.indices ++ p.indices⟩

/-- What one `run_agent` call leaves behind: the updated
`_history_offsets`, the returned string, whether the `except` branch ran
(the error was reported and `""` returned rather than propagated), the
printed drain lines and consumed indices, and whether the
post-completion drain of runner.py line 96 was executed. -/
structure RunOutcome where
  offsets : List (String × Int)
  finalText : String
  errored : Bool
  rendered : List String
  renderedIdx : List Nat
  finalDrained : Bool
deriving DecidableEq

/-- `run_agent` of runner.py (lines 62-119), sequential model. `polls`
are the message-list snapshots seen by the poll iterations while the
worker is alive; `finalMsgs` is the thread's message list once the worker
has completed; `outcome` is the worker's outcome. Control flow follows
the source: read the stored offset (default 0), run the polling drains
and the final drain (both only when `show_trace`), then re-raise a stored
error (caught by the outer `except`, which prints it and returns `""`),
otherwise compute the final output and store the new offset —
`len(result["messages"])` when that list is non-empty, else the current
`start_idx`. -/
def run_agent (offsets : List (String × Int)) (thread_id : String)
    (show_trace : Bool) (polls : List (List Message))
    (finalMsgs : List Message) (outcome : ExecOutcome) : RunOutcome :=
  let start0 : Int := (alookup offsets thread_id).getD 0
  let p := if show_trace then pollLoop polls start0 false
           else ⟨start0, false, [], []⟩
  let f := if show_trace then emit_new_messages finalMsgs p.cursor p.trace_started
           else ⟨p.cursor, p.trace_started, false, [], []⟩
  let rendered := p.output ++ f.output
  let idxs := p.indices ++ f.indices
  match outcome with
  | .err _ => ⟨offsets, "", true, rendered, idxs, show_trace⟩
  | .ok result =>
    let newOffsets :=
      match result.messages with
      | some ms =>
        if 0 < ms.length then aupdate offsets thread_id (ms.length : Int)
        else aupdate offsets thread_id f.new_cursor
      | none => aupdate offsets thread_id f.new_cursor
    ⟨newOffsets, runner_final_output result, false, rendered, idxs, show_trace⟩

/-! ## Dispatch sequences (for the cross-turn invariants) -/

/-- One dispatch against the executor: the poll snapshots observed, the
thread's message list after the executor completed, and the executor's
result dictionary. -/
structure Dispatch where
  polls : List (List Message)
  finalMsgs : List Message
  result : PyResult
deriving DecidableEq

/-- One successful dispatch with progress display on. -/
def dispatchOne (offsets : List (String × Int)) (thread_id : String)
    (d : Dispatch) : RunOutcome :=
  run_agent offsets thread_id true d.polls d.finalMsgs (.ok d.result)

/-- Run a sequence of dispatches on one thread, collecting the final
offsets map and every message index consumed by any drain. -/
def runSeq (thread_id : String) :
    List (String × Int) → List Dispatch → List (String × Int) × List Nat
  | offsets, [] => (offsets, [])
  | offsets, d :: rest =>
    let out := dispatchOne offsets thread_id d
    let r := runSeq thread_id out.offsets rest
    (r.1, out.renderedIdx ++ r.2)

/-- A dispatch is well-formed at incoming offset `o` when the executor
obeys its contract: the result's `"messages"` list is exactly the
thread's message list after the turn and is non-empty, and the store only
grows (snapshot lengths are monotone from `o` up to the final length). -/
def okDispatch (o : Nat) (d : Dispatch) : Prop :=
  d.result.messages = some d.finalMsgs ∧ d.finalMsgs ≠ [] ∧
  List.Chain (· ≤ ·) o (d.polls.map List.length ++ [d.finalMsgs.length])

/-- A sequence of successful dispatches, each well-formed at the offset
the previous one stored. -/
def SeqOK : Nat → List Dispatch → Prop
  | _, [] => True
  | o, d :: rest => okDispatch o d ∧ SeqOK d.finalMsgs.length rest

/-- The thread's total message count after a dispatch sequence starting
from count `o`. -/
def lastTotal (o : Nat) (ds : List Dispatch) : Nat :=
  ds.foldl (fun _ d => d.finalMsgs.length) o

/-! ## Concrete fixtures used by witnesses and counterexamples -/

/-- A user message as langgraph produces it (`type = "human"`). -/
def msgUser : Message := ⟨"human", "user", "hi"⟩

/-- An assistant message. -/
def msgAsst : Message := ⟨"ai", "assistant", " hello world "⟩

/-- A one-thread store holding a single user message. -/
def exStore : String → List Message := fun _ => [msgUser]

/-- A store with no messages on any thread, as after a clear. -/
def exEmptyStore : String → List Message := fun _ => []

/-- An executor result with a two-message history. -/
def exResult : PyResult := ⟨some [msgUser, msgAsst], none, "\x7b\x7d"⟩

/-- A checkpoint holding one message. -/
def exCkptMsgs : Checkpoint := ⟨some ⟨some [msgUser]⟩⟩

/-- A system state where thread `"t"` has a checkpoint and a stored
read-offset of 5. -/
def exSys : SysState := ⟨[("t", exCkptMsgs)], [("t", 5)]⟩

/-- First dispatch of a two-dispatch scenario: the store grows from 0 to
2 messages. -/
def exD1 : Dispatch :=
  ⟨[[msgUser]], [msgUser, msgAsst], ⟨some [msgUser, msgAsst], none, "r1"⟩⟩

/-- Second dispatch: the store grows from 2 to 4 messages. -/
def exD2 : Dispatch :=
  ⟨[[msgUser, msgAsst, msgUser]], [msgUser, msgAsst, msgUser, msgAsst],
    ⟨some [msgUser, msgAsst, msgUser, msgAsst], none, "r2"⟩⟩

/-! ## Basic lemmas -/

theorem alookup_aupdate {α : Type} (l : List (String × α)) (k : String) (v : α) :
    alookup (aupdate l k v) k = some v := by
  induction l with
  | nil => simp [aupdate, alookup]
  | cons p rest ih =>
    obtain ⟨k', v'⟩ := p
    by_cases h : k' = k
    · simp [aupdate, alookup, h]
    · simp [aupdate, alookup, h, ih]

theorem alookup_aremove {α : Type} (l : List (String × α)) (k : String) :
    alookup (aremove l k) k = none := by
  induction l with
  | nil => simp [aremove, alookup]
  | cons p rest ih =>
    obtain ⟨k', v'⟩ := p
    by_cases h : k' = k
    · simp [aremove, h, ih]
    · simp [aremove, alookup, h, ih]

theorem clampCursor_natCast (n total : Nat) :
    clampCursor (n : Int) total = min n total := by
  unfold clampCursor
  split
  · omega
  · split <;> omega

theorem clampCursor_nonneg_large (c : Int) (total : Nat)
    (h : (total : Int) ≤ c) : total ≤ clampCursor c total := by
  unfold clampCursor
  split
  · omega
  · split <;> omega

theorem emit_cursor (ms : List Message) (c : Int) (ts : Bool) :
    (emit_new_messages ms c ts).new_cursor = (ms.length : Int) := by
  simp only [emit_new_messages]
  split <;> rfl

theorem emit_of_stale (ms : List Message) (c : Int) (ts : Bool)
    (h : (ms.length : Int) ≤ c) :
    emit_new_messages ms c ts = ⟨(ms.length : Int), ts, false, [], []⟩ := by
  have hs : ms.length ≤ clampCursor c ms.length :=
    clampCursor_nonneg_large c ms.length h
  simp only [emit_new_messages]
  rw [if_pos hs]

theorem emit_of_lt (ms : List Message) (c : Nat) (ts : Bool)
    (h : c < ms.length) :
    emit_new_messages ms (c : Int) ts =
      ⟨(ms.length : Int), true, true,
        (if ts then [] else ["\n📜 === 执行过程 ==="]) ++
          (ms.drop c).filterMap render_message,
        List.range' c (ms.length - c)⟩ := by
  have hc : clampCursor (c : Int) ms.length = c := by
    rw [clampCursor_natCast]; omega
  have hlt : ¬ (ms.length ≤ clampCursor (c : Int) ms.length) := by
    rw [hc]; omega
  simp only [emit_new_messages]
  rw [if_neg hlt, hc]

theorem emit_spec_nat (ms : List Message) (c : Nat) (ts : Bool)
    (h : c ≤ ms.length) :
    (emit_new_messages ms (c : Int) ts).new_cursor = (ms.length : Int) ∧
    (emit_new_messages ms (c : Int) ts).indices
        = List.range' c (ms.length - c) := by
  refine ⟨emit_cursor ms (c : Int) ts, ?_⟩
  rcases Nat.lt_or_ge c ms.length with h' | h'
  · rw [emit_of_lt ms c ts h']
  · have he : c = ms.length := le_antisymm h h'
    rw [emit_of_stale ms (c : Int) ts (by omega)]
    simp [he]

theorem emit_empty (c : Int) (ts : Bool) :
    emit_new_messages [] c ts = ⟨0, ts, false, [], []⟩ := by
  simp only [emit_new_messages, List.length_nil]
  rw [if_pos (Nat.zero_le _)]
  norm_num

theorem chain_le_getLastD (a : Nat) (l : List Nat)
    (h : List.Chain (· ≤ ·) a l) : a ≤ l.getLastD a := by
  induction l generalizing a with
  | nil => simp
  | cons b t ih =>
    rw [List.chain_cons] at h
    rw [List.getLastD_cons]
    exact le_trans h.1 (ih b h.2)

theorem getLastD_concat (a d : Nat) (l : List Nat) :
    (l ++ [a]).getLastD d = a := by
  induction l generalizing d with
  | nil => rfl
  | cons b t ih => rw [List.cons_append, List.getLastD_cons, ih]

theorem pollLoop_cons_cursor (snap : List Message) (rest : List (List Message))
    (c : Int) (ts : Bool) :
    (pollLoop (snap :: rest) c ts).cursor =
      (pollLoop rest (emit_new_messages snap c ts).new_cursor
        (emit_new_messages snap c ts).trace_started).cursor := rfl

theorem pollLoop_cons_ts (snap : List Message) (rest : List (List Message))
    (c : Int) (ts : Bool) :
    (pollLoop (snap :: rest) c ts).trace_started =
      (pollLoop rest (emit_new_messages snap c ts).new_cursor
        (emit_new_messages snap c ts).trace_started).trace_started := rfl

theorem pollLoop_cons_indices (snap : List Message) (rest : List (List Message))
    (c : Int) (ts : Bool) :
    (pollLoop (snap :: rest) c ts).indices =
      (emit_new_messages snap c ts).indices ++
      (pollLoop rest (emit_new_messages snap c ts).new_cursor
        (emit_new_messages snap c ts).trace_started).indices := rfl

/-- Along a poll loop whose snapshot lengths grow monotonically from the
initial cursor, the final cursor is the last snapshot's length, and the
consumed indices are distinct and all lie in `[c, last length)`. -/
theorem pollLoop_spec (snaps : List (List Message)) (c : Nat) (ts : Bool)
    (h : List.Chain (· ≤ ·) c (snaps.map List.length)) :
    (pollLoop snaps (c : Int) ts).cursor
        = (((snaps.map List.length).getLastD c : Nat) : Int) ∧
    (pollLoop snaps (c : Int) ts).indices.Nodup ∧
    ∀ i ∈ (pollLoop snaps (c : Int) ts).indices,
      c ≤ i ∧ i < (snaps.map List.length).getLastD c := by
  induction snaps generalizing c ts with
  | nil => simp [pollLoop]
  | cons snap rest ih =>
    rw [List.map_cons, List.chain_cons] at h
    obtain ⟨h1, h2⟩ := h
    obtain ⟨ec, ei⟩ := emit_spec_nat snap c ts h1
    have ihs := ih snap.length (emit_new_messages snap (c : Int) ts).trace_started h2
    have hlast : snap.length ≤ (rest.map List.length).getLastD snap.length :=
      chain_le_getLastD _ _ h2
    rw [List.map_cons, List.getLastD_cons]
    refine ⟨?_, ?_, ?_⟩
    · rw [pollLoop_cons_cursor, ec]
      exact ihs.1
    · rw [pollLoop_cons_indices, ec, ei]
      refine List.Nodup.append (List.nodup_range' _ _) ihs.2.1 ?_
      intro a ha hb
      have hm1 := List.mem_range'_1.mp ha
      have hm2 := (ihs.2.2 a hb).1
      omega
    · intro i hi
      rw [pollLoop_cons_indices, ec, ei] at hi
      rcases List.mem_append.mp hi with hi | hi
      · have hm := List.mem_range'_1.mp hi
        exact ⟨hm.1, by omega⟩
      · have hm := ihs.2.2 i hi
        exact ⟨le_trans h1 hm.1, hm.2⟩

theorem chain_append_singleton (a b : Nat) (l : List Nat)
    (h : List.Chain (· ≤ ·) a (l ++ [b])) :
    List.Chain (· ≤ ·) a l ∧ l.getLastD a ≤ b := by
  induction l generalizing a with
  | nil =>
    rw [List.nil_append, List.chain_cons] at h
    exact ⟨List.Chain.nil, h.1⟩
  | cons x t ih =>
    rw [List.cons_append, List.chain_cons] at h
    obtain ⟨h1, h2⟩ := h
    obtain ⟨h3, h4⟩ := ih x h2
    exact ⟨List.chain_cons.mpr ⟨h1, h3⟩, by rwa [List.getLastD_cons]⟩

theorem run_agent_renderedIdx (offsets : List (String × Int))
    (thread_id : String) (polls : List (List Message))
    (finalMsgs : List Message) (outcome : ExecOutcome) :
    (run_agent offsets thread_id true polls finalMsgs outcome).renderedIdx =
      (pollLoop polls ((alookup offsets thread_id).getD 0) false).indices ++
      (emit_new_messages finalMsgs
        (pollLoop polls ((alookup offsets thread_id).getD 0) false).cursor
        (pollLoop polls ((alookup offsets thread_id).getD 0) false).trace_started).indices := by
  cases outcome with
  | err e => rfl
  | ok r => rfl

/-- During one dispatch with progress display on, if the store grows
monotonically from the stored offset `o` up to the final message count,
then the drains consume distinct indices, all within
`[o, finalMsgs.length)`. -/
theorem run_agent_drain_spec (offsets : List (String × Int))
    (thread_id : String) (polls : List (List Message))
    (finalMsgs : List Message) (o : Nat) (outcome : ExecOutcome)
    (hoff : (alookup offsets thread_id).getD 0 = (o : Int))
    (h : List.Chain (· ≤ ·) o (polls.map List.length ++ [finalMsgs.length])) :
    (run_agent offsets thread_id true polls finalMsgs outcome).renderedIdx.Nodup ∧
    ∀ i ∈ (run_agent offsets thread_id true polls finalMsgs outcome).renderedIdx,
      o ≤ i ∧ i < finalMsgs.length := by
  obtain ⟨hchain, hle⟩ := chain_append_singleton o finalMsgs.length _ h
  obtain ⟨pc, pnd, pmem⟩ := pollLoop_spec polls o false hchain
  have hlast : o ≤ (polls.map List.length).getLastD o :=
    chain_le_getLastD _ _ hchain
  obtain ⟨_, fi⟩ := emit_spec_nat finalMsgs ((polls.map List.length).getLastD o)
    (pollLoop polls (o : Int) false).trace_started hle
  rw [run_agent_renderedIdx, hoff, pc, fi]
  constructor
  · refine List.Nodup.append pnd (List.nodup_range' _ _) ?_
    intro a ha hb
    have hm1 := (pmem a ha).2
    have hm2 := List.mem_range'_1.mp hb
    omega
  · intro i hi
    rcases List.mem_append.mp hi with hi | hi
    · have hm := pmem i hi
      exact ⟨hm.1, by omega⟩
    · have hm := List.mem_range'_1.mp hi
      exact ⟨by omega, by omega⟩

theorem emit_clamp_congr (ms : List Message) (c c' : Int) (ts : Bool)
    (h : clampCursor c ms.length = clampCursor c' ms.length) :
    emit_new_messages ms c ts = emit_new_messages ms c' ts := by
  simp only [emit_new_messages, h]

theorem run_agent_ok_fields (offsets : List (String × Int)) (thread_id : String)
    (st : Bool) (polls : List (List Message)) (finalMsgs : List Message)
    (result : PyResult) (ms : List Message)
    (hms : result.messages = some ms) (hne : ms ≠ []) :
    (run_agent offsets thread_id st polls finalMsgs (.ok result)).offsets
        = aupdate offsets thread_id (ms.length : Int) ∧
    (run_agent offsets thread_id st polls finalMsgs (.ok result)).finalText
        = runner_final_output result ∧
    (run_agent offsets thread_id st polls finalMsgs (.ok result)).errored
        = false := by
  have hlen : 0 < ms.length := List.length_pos.mpr hne
  refine ⟨?_, rfl, rfl⟩
  simp only [run_agent, hms]
  rw [if_pos hlen]

theorem runner_final_output_some (result : PyResult) (ms : List Message)
    (hms : result.messages = some ms) (hne : ms ≠ []) :
    runner_final_output result = pyStrip (py_last_content ms) := by
  simp only [runner_final_output, hms]
  rw [if_pos (List.length_pos.mpr hne)]

theorem runner_final_output_none (result : PyResult)
    (hms : result.messages = none) :
    runner_final_output result = pyStrip (result.output.getD result.raw) := by
  simp only [runner_final_output, hms]

theorem lastTotal_cons (o : Nat) (d : Dispatch) (t : List Dispatch) :
    lastTotal o (d :: t) = lastTotal d.finalMsgs.length t := rfl

theorem lastTotal_singleton (o : Nat) (d : Dispatch) :
    lastTotal o [d] = d.finalMsgs.length := rfl

theorem lastTotal_append (o : Nat) (l1 l2 : List Dispatch) :
    lastTotal o (l1 ++ l2) = lastTotal (lastTotal o l1) l2 := by
  induction l1 generalizing o with
  | nil => rfl
  | cons d t ih => rw [List.cons_append, lastTotal_cons, lastTotal_cons, ih]

theorem seqOK_append (o : Nat) (l1 l2 : List Dispatch)
    (h : SeqOK o (l1 ++ l2)) : SeqOK o l1 ∧ SeqOK (lastTotal o l1) l2 := by
  induction l1 generalizing o with
  | nil => exact ⟨trivial, h⟩
  | cons d t ih =>
    obtain ⟨hd, ht⟩ := h
    obtain ⟨h1, h2⟩ := ih d.finalMsgs.length ht
    exact ⟨⟨hd, h1⟩, h2⟩

theorem seqOK_append_of (o : Nat) (l1 l2 : List Dispatch)
    (h1 : SeqOK o l1) (h2 : SeqOK (lastTotal o l1) l2) :
    SeqOK o (l1 ++ l2) := by
  induction l1 generalizing o with
  | nil => exact h2
  | cons d t ih =>
    obtain ⟨hd, ht⟩ := h1
    exact ⟨hd, ih d.finalMsgs.length ht h2⟩

theorem runSeq_cons (thread_id : String) (offsets : List (String × Int))
    (d : Dispatch) (rest : List Dispatch) :
    runSeq thread_id offsets (d :: rest)
      = ((runSeq thread_id (dispatchOne offsets thread_id d).offsets rest).1,
         (dispatchOne offsets thread_id d).renderedIdx ++
           (runSeq thread_id (dispatchOne offsets thread_id d).offsets rest).2) := rfl

/-- Main invariant: running a `SeqOK` dispatch sequence from a state whose
stored offset reads as `o`, the final stored offset is the final total
message count, the totals never drop below `o`, and the indices consumed
by all drains are pairwise distinct and confined to `[o, final total)`. -/
theorem runSeq_spec (thread_id : String) (ds : List Dispatch)
    (offsets : List (String × Int)) (o : Nat)
    (hoff : (alookup offsets thread_id).getD 0 = (o : Int))
    (h : SeqOK o ds) :
    (alookup (runSeq thread_id offsets ds).1 thread_id).getD 0
        = (lastTotal o ds : Int) ∧
    o ≤ lastTotal o ds ∧
    (runSeq thread_id offsets ds).2.Nodup ∧
    ∀ i ∈ (runSeq thread_id offsets ds).2, o ≤ i ∧ i < lastTotal o ds := by
  induction ds generalizing offsets o with
  | nil =>
    refine ⟨hoff, le_rfl, List.nodup_nil, ?_⟩
    intro i hi
    simp [runSeq] at hi
  | cons d rest ih =>
    obtain ⟨⟨hres, hne, hchain⟩, hrest⟩ := h
    have hfield := run_agent_ok_fields offsets thread_id true d.polls
      d.finalMsgs d.result d.finalMsgs hres hne
    have hOffEq : (dispatchOne offsets thread_id d).offsets
        = aupdate offsets thread_id (d.finalMsgs.length : Int) := hfield.1
    have hoff' : (alookup (dispatchOne offsets thread_id d).offsets
        thread_id).getD 0 = ((d.finalMsgs.length : Nat) : Int) := by
      rw [hOffEq, alookup_aupdate]
      rfl
    obtain ⟨ic, ile, ind, imem⟩ :=
      ih (dispatchOne offsets thread_id d).offsets d.finalMsgs.length hoff' hrest
    have hdrain := run_agent_drain_spec offsets thread_id d.polls d.finalMsgs o
      (.ok d.result) hoff hchain
    obtain ⟨hchain1, hlastle⟩ :=
      chain_append_singleton o d.finalMsgs.length _ hchain
    have hole : o ≤ d.finalMsgs.length :=
      le_trans (chain_le_getLastD _ _ hchain1) hlastle
    rw [runSeq_cons, lastTotal_cons]
    refine ⟨ic, le_trans hole ile, ?_, ?_⟩
    · refine List.Nodup.append hdrain.1 ind ?_
      intro a ha hb
      have h1 := (hdrain.2 a ha).2
      have h2 := (imem a hb).1
      omega
    · intro i hi
      rcases List.mem_append.mp hi with hi | hi
      · have hm := hdrain.2 i hi
        exact ⟨hm.1, lt_of_lt_of_le hm.2 ile⟩
      · have hm := imem i hi
        exact ⟨le_trans hole hm.1, hm.2⟩

/-! ## Claim theorems -/

/-- C2, counterexample: `drain` (`_emit_new_messages`) is a pure function
of the message store and the cursor; it keeps no per-call state. Calling
it twice with the same `(thread_id, cursor)` therefore returns the same
value both times, so with one unread non-empty message at cursor 0 the
second call (here taking the `trace_started` flag the first call
returned) renders the message again and reports `did_emit = true`,
contradicting the claim's required `did_emit = False` and no output. -/
theorem C2_counterexample :
    (drain exStore "t" 0 ((drain exStore "t" 0 false).trace_started)).did_emit
        = true ∧
    (drain exStore "t" 0 ((drain exStore "t" 0 false).trace_started)).output
        ≠ [] := by
  constructor <;> decide

/-- C2, amended: calling `drain` a second time with the *new cursor
returned by the first call* (and no intervening appends) renders nothing,
reports `did_emit = false`, and leaves the cursor unchanged — for every
store, thread, starting cursor and trace flags. -/
theorem C2_drain_idempotent (store : String → List Message)
    (thread_id : String) (c : Int) (ts ts' : Bool) :
    (drain store thread_id (drain store thread_id c ts).new_cursor ts').did_emit
        = false ∧
    (drain store thread_id (drain store thread_id c ts).new_cursor ts').output
        = [] ∧
    (drain store thread_id (drain store thread_id c ts).new_cursor ts').new_cursor
        = (drain store thread_id c ts).new_cursor := by
  have h1 : (drain store thread_id c ts).new_cursor
      = ((store thread_id).length : Int) := emit_cursor _ _ _
  unfold drain
  unfold drain at h1
  rw [h1, emit_of_stale (store thread_id) ((store thread_id).length : Int) ts' le_rfl]
  exact ⟨rfl, rfl, rfl⟩

/-- C6: `drain` is total on every integer cursor. Its returned cursor is
always the current message count; a cursor at or beyond the count (after
clamping) renders nothing and returns `(len(messages), False)`; a
negative cursor is clamped to 0; and a stale cursor against an emptied
thread collapses to 0 without failure. -/
theorem C6_drain_total_clamped (store : String → List Message)
    (thread_id : String) (c : Int) (ts : Bool) :
    (drain store thread_id c ts).new_cursor = ((store thread_id).length : Int) ∧
    (((store thread_id).length : Int) ≤ c →
      drain store thread_id c ts
        = ⟨((store thread_id).length : Int), ts, false, [], []⟩) ∧
    (c < 0 → drain store thread_id c ts = drain store thread_id 0 ts) ∧
    (store thread_id = [] →
      drain store thread_id c ts = ⟨0, ts, false, [], []⟩) := by
  refine ⟨emit_cursor _ _ _, fun h => emit_of_stale _ _ _ h, ?_, ?_⟩
  · intro hneg
    apply emit_clamp_congr
    have h0 : clampCursor 0 (store thread_id).length = 0 := by
      have := clampCursor_natCast 0 (store thread_id).length
      simpa using this
    rw [h0]
    unfold clampCursor
    rw [if_pos hneg]
  · intro hempty
    unfold drain
    rw [hempty]
    exact emit_empty c ts

/-- Witness for C6 at an emptied thread with a stale cursor 7 and a
negative cursor -3. -/
theorem C6_witness :
    (((exEmptyStore "t").length : Int) ≤ 7 ∧
      drain exEmptyStore "t" 7 false
        = ⟨((exEmptyStore "t").length : Int), false, false, [], []⟩) ∧
    ((-3 : Int) < 0 ∧
      drain exEmptyStore "t" (-3) false = drain exEmptyStore "t" 0 false) ∧
    (exEmptyStore "t" = [] ∧
      drain exEmptyStore "t" 9 false = ⟨0, false, false, [], []⟩) :=
  ⟨⟨by decide, (C6_drain_total_clamped exEmptyStore "t" 7 false).2.1 (by decide)⟩,
   ⟨by decide, (C6_drain_total_clamped exEmptyStore "t" (-3) false).2.2.1 (by decide)⟩,
   ⟨rfl, (C6_drain_total_clamped exEmptyStore "t" 9 false).2.2.2 rfl⟩⟩

/-- C7, counterexample: the claim says a recognized `role` field decides
the label regardless of the `type` tag. But the source checks
`msg_role == "system" or msg_type == "system"` *first*, so a message with
`role = "user"` (a recognized value) and `type = "system"` is labeled
"系统提示" (system-prompt), not "用户输入" (user-input). -/
theorem C7_counterexample :
    classify ⟨"system", "user", "x"⟩ = "系统提示" ∧
    ¬ classify ⟨"system", "user", "x"⟩ = "用户输入" := by
  constructor <;> decide

/-- C7, amended: classification tests the system category first
(`role = "system"` or `type = "system"`), then the user category
(`role = "user"` or `type ∈ {"human", "user"}`), and defaults to
model-response. Hence `role = "system"` always decides the label;
`role = "user"` decides it only when the type tag is not `"system"`;
and when neither field carries a recognized value the label defaults to
model-response. -/
theorem C7_role_precedence (m : Message) :
    (pyLower m.role = "system" → classify m = "系统提示") ∧
    (pyLower m.role = "user" → pyLower m.type ≠ "system" →
      classify m = "用户输入") ∧
    (pyLower m.role ≠ "system" → pyLower m.role ≠ "user" →
      pyLower m.type ≠ "system" → pyLower m.type ≠ "human" →
      pyLower m.type ≠ "user" → classify m = "模型响应") := by
  unfold classify role_label_of
  refine ⟨?_, ?_, ?_⟩
  · intro h
    rw [if_pos (Or.inl h)]
  · intro h ht
    rw [if_neg (by simp [h, ht]), if_pos (Or.inl h)]
  · intro h1 h2 h3 h4 h5
    rw [if_neg (by simp [h1, h3]), if_neg (by simp [h2, h4, h5])]

/-- Witness for C7 (amended) on a message whose role is `"user"` and
whose type tag is `"ai"`. -/
theorem C7_witness :
    pyLower (Message.mk "ai" "user" "x").role = "user" ∧
    pyLower (Message.mk "ai" "user" "x").type ≠ "system" ∧
    classify (Message.mk "ai" "user" "x") = "用户输入" :=
  ⟨by decide, by decide,
    (C7_role_precedence ⟨"ai", "user", "x"⟩).2.1 (by decide) (by decide)⟩

/-- C8: a rendered message (non-empty stripped content) is displayed in
full without a truncation marker when the stripped content has at most
2000 characters, and is displayed as its first 2000 characters followed
by the marker when strictly longer. -/
theorem C8_truncation_boundary (m : Message) (h : pyStrip m.content ≠ "") :
    ((pyStrip m.content).length ≤ 2000 →
      render_message m
        = some ("\n[" ++ display_label m ++ "]\n" ++ pyStrip m.content)) ∧
    (2000 < (pyStrip m.content).length →
      render_message m
        = some ("\n[" ++ display_label m ++ "]\n" ++
            pyTake (pyStrip m.content) 2000 ++ "...（已截断）") ∧
      (pyTake (pyStrip m.content) 2000).length = 2000) := by
  constructor
  · intro hle
    have hle' : (pyStrip m.content).data.length ≤ 2000 := hle
    have htake : pyTake (pyStrip m.content) 2000 = pyStrip m.content := by
      show (⟨(pyStrip m.content).data.take 2000⟩ : String) = pyStrip m.content
      rw [List.take_of_length_le hle']
    unfold render_message
    rw [if_neg h, if_neg (by omega), htake]
    simp
  · intro hgt
    have hgt' : 2000 < (pyStrip m.content).data.length := hgt
    constructor
    · unfold render_message
      rw [if_neg h, if_pos hgt]
    · show ((pyStrip m.content).data.take 2000).length = 2000
      rw [List.length_take]
      omega

/-- Witness for C8 on a short message (`" hello world "`, stripped length
11 ≤ 2000): rendered in full with no truncation marker. -/
theorem C8_witness :
    pyStrip msgAsst.content ≠ "" ∧ (pyStrip msgAsst.content).length ≤ 2000 ∧
    render_message msgAsst
      = some ("\n[" ++ display_label msgAsst ++ "]\n" ++ pyStrip msgAsst.content) :=
  ⟨by decide, by decide,
    (C8_truncation_boundary msgAsst (by decide)).1 (by decide)⟩

/-- C9: `get_messages` is a total function (it absorbs every checkpointer
exception); it returns `[]` when the underlying read raises, `[]` when
the thread has no checkpoint, and the checkpoint's ordered message list
otherwise. -/
theorem C9_get_messages_never_fails
    (f : String → Except String (Option Checkpoint)) (thread_id : String) :
    (∀ e, f thread_id = .error e → get_messages f thread_id = []) ∧
    (f thread_id = .ok none → get_messages f thread_id = []) ∧
    (∀ c, f thread_id = .ok (some c) →
      get_messages f thread_id
        = ((c.channel_values.getD ⟨none⟩).messages).getD []) := by
  refine ⟨?_, ?_, ?_⟩
  · intro e he
    unfold get_messages
    rw [he]
  · intro he
    unfold get_messages
    rw [he]
  · intro c hc
    unfold get_messages
    rw [hc]

/-- Witness for C9 on an empty checkpointer: the thread is unknown and
`get_messages` returns the empty list. -/
theorem C9_witness :
    store_get [] "t" = .ok none ∧ get_messages (store_get []) "t" = [] :=
  ⟨rfl, (C9_get_messages_never_fails (store_get []) "t").2.1 rfl⟩

/-- C10: the monolithic entry point (src/main.py lines 484-488) and the
decomposed runner (runner.py lines 101-108) compute the final answer text
by the same rule, so on every executor result dictionary they return the
same text. -/
theorem C10_final_text_refinement (result : PyResult) :
    main_final_output result = runner_final_output result := by
  unfold main_final_output runner_final_output
  rfl

/-- C1: on a successful dispatch whose executor result carries a
non-empty `"messages"` list — per the executor contract this list is the
thread's full message sequence after the turn, so its length is the total
message count — the stored read-offset for the thread becomes that total
count and the returned final text is the last message's content (already
coerced to text) stripped; when the result carries no message sequence,
the final text is the fallback `"output"` field, defaulting to the whole
raw result coerced to text, stripped. -/
theorem C1_dispatch_success (offsets : List (String × Int))
    (thread_id : String) (polls : List (List Message))
    (finalMsgs : List Message) (result : PyResult) :
    (∀ ms, result.messages = some ms → ms ≠ [] → finalMsgs = ms →
      alookup (run_agent offsets thread_id true polls finalMsgs
          (.ok result)).offsets thread_id = some (finalMsgs.length : Int) ∧
      ∀ last, ms.getLast? = some last →
        (run_agent offsets thread_id true polls finalMsgs
            (.ok result)).finalText = pyStrip last.content) ∧
    (result.messages = none →
      (run_agent offsets thread_id true polls finalMsgs
          (.ok result)).finalText
        = pyStrip (result.output.getD result.raw)) := by
  constructor
  · intro ms hms hne hfull
    obtain ⟨ho, hf, _⟩ := run_agent_ok_fields offsets thread_id true polls
      finalMsgs result ms hms hne
    constructor
    · rw [ho, alookup_aupdate, hfull]
    · intro last hlast
      rw [hf, runner_final_output_some result ms hms hne]
      unfold py_last_content
      rw [hlast]
  · intro hms
    obtain ⟨ho, hf, _⟩ : (run_agent offsets thread_id true polls finalMsgs
        (.ok result)).finalText = runner_final_output result ∧ True ∧ True :=
      ⟨rfl, trivial, trivial⟩
    rw [ho, runner_final_output_none result hms]

/-- Witness for C1: a dispatch on a fresh thread whose result holds the
two-message history `[msgUser, msgAsst]`: the stored offset becomes 2 and
the final text is the stripped content of the last message. -/
theorem C1_witness :
    exResult.messages = some [msgUser, msgAsst] ∧
    ([msgUser, msgAsst] : List Message) ≠ [] ∧
    alookup (run_agent [] "t" true [] [msgUser, msgAsst]
        (.ok exResult)).offsets "t"
      = some (([msgUser, msgAsst] : List Message).length : Int) ∧
    (run_agent [] "t" true [] [msgUser, msgAsst] (.ok exResult)).finalText
      = pyStrip msgAsst.content := by
  have h := (C1_dispatch_success [] "t" [] [msgUser, msgAsst] exResult).1
    [msgUser, msgAsst] rfl (by decide) rfl
  exact ⟨rfl, by decide, h.1, h.2 msgAsst rfl⟩

/-- C3, counterexample: `clear_memory` lives in memory.py and only calls
the checkpointer's delete; it never touches the runner's
`_history_offsets` dictionary. Starting from a state where thread `"t"`
has a checkpoint and a stored read-offset of 5, the clear succeeds but
the read-offset entry survives, and the starting cursor the next
dispatch would read (`_history_offsets.get(thread_id, 0)`) is 5, not 0 —
refuting "removes ... the thread's read-offset entry, so that a
subsequent dispatch on that thread starts its drain cursor at 0". -/
theorem C3_counterexample :
    (clear_memory exSys "t").2 = true ∧
    alookup (clear_memory exSys "t").1.offsets "t" = some 5 ∧
    (alookup (clear_memory exSys "t").1.offsets "t").getD 0 ≠ 0 := by
  refine ⟨?_, ?_, ?_⟩ <;> decide

/-- C3, amended: `clear_memory` removes the thread's message sequence
from the checkpointer (and reports a non-fatal failure when the thread
has no recorded state), but leaves the read-offset entry in place; a
subsequent drain of the now-empty thread clamps the stale cursor to 0
and renders nothing, so the cursor collapses to 0 behaviourally even
though the offset entry is not removed. -/
theorem C3_clear_behavior (s : SysState) (thread_id : String) :
    ((alookup s.checkpoints thread_id).isSome = true →
      alookup (clear_memory s thread_id).1.checkpoints thread_id = none ∧
      (clear_memory s thread_id).1.offsets = s.offsets ∧
      (clear_memory s thread_id).2 = true ∧
      get_messages (store_get (clear_memory s thread_id).1.checkpoints)
          thread_id = [] ∧
      ∀ c : Int, ∀ ts : Bool,
        drain (fun t => get_messages
            (store_get (clear_memory s thread_id).1.checkpoints) t)
          thread_id c ts = ⟨0, ts, false, [], []⟩) ∧
    (alookup s.checkpoints thread_id = none →
      clear_memory s thread_id = (s, false)) := by
  constructor
  · intro hsome
    have hdel : checkpointer_delete s.checkpoints thread_id
        = .ok (aremove s.checkpoints thread_id) := by
      unfold checkpointer_delete
      rw [if_pos hsome]
    have hclear : clear_memory s thread_id
        = ({ s with checkpoints := aremove s.checkpoints thread_id }, true) := by
      unfold clear_memory
      rw [hdel]
    have hget : get_messages
        (store_get (clear_memory s thread_id).1.checkpoints) thread_id = [] := by
      rw [hclear]
      unfold get_messages store_get
      rw [alookup_aremove]
    refine ⟨?_, ?_, ?_, hget, ?_⟩
    · rw [hclear]
      exact alookup_aremove _ _
    · rw [hclear]
    · rw [hclear]
    · intro c ts
      show emit_new_messages (get_messages
          (store_get (clear_memory s thread_id).1.checkpoints) thread_id) c ts
        = ⟨0, ts, false, [], []⟩
      rw [hget]
      exact emit_empty c ts
  · intro hnone
    have hdel : checkpointer_delete s.checkpoints thread_id
        = .error "thread not found" := by
      unfold checkpointer_delete
      rw [hnone]
      rfl
    unfold clear_memory
    rw [hdel]

/-- Witness for C3 (amended) on `exSys`: the checkpoint entry of `"t"` is
removed, the offsets dictionary is untouched, and a drain with the stale
cursor 5 against the cleared thread returns cursor 0 and renders
nothing. -/
theorem C3_witness :
    (alookup exSys.checkpoints "t").isSome = true ∧
    alookup (clear_memory exSys "t").1.checkpoints "t" = none ∧
    (clear_memory exSys "t").1.offsets = exSys.offsets ∧
    drain (fun t => get_messages
        (store_get (clear_memory exSys "t").1.checkpoints) t) "t" 5 false
      = ⟨0, false, false, [], []⟩ := by
  have h := (C3_clear_behavior exSys "t").1 (by decide)
  exact ⟨by decide, h.1, h.2.1, h.2.2.2.2 5 false⟩

/-- C4: when the executor stores an error, `run_agent` still performs the
post-completion drain against the final store contents (when progress
display is on), reports the failure as a returned result (the outer
`except` prints it and returns `""`, so `errored` is the only signal and
no exception escapes), and leaves the whole stored read-offset map — in
particular this thread's entry — unchanged. -/
theorem C4_executor_failure (offsets : List (String × Int))
    (thread_id : String) (show_trace : Bool) (polls : List (List Message))
    (finalMsgs : List Message) (e : String) :
    (run_agent offsets thread_id show_trace polls finalMsgs
        (.err e)).offsets = offsets ∧
    (run_agent offsets thread_id show_trace polls finalMsgs
        (.err e)).errored = true ∧
    (run_agent offsets thread_id show_trace polls finalMsgs
        (.err e)).finalText = "" ∧
    (show_trace = true →
      (run_agent offsets thread_id show_trace polls finalMsgs
          (.err e)).finalDrained = true ∧
      (run_agent offsets thread_id show_trace polls finalMsgs
          (.err e)).rendered
        = (pollLoop polls ((alookup offsets thread_id).getD 0) false).output ++
          (emit_new_messages finalMsgs
            (pollLoop polls ((alookup offsets thread_id).getD 0) false).cursor
            (pollLoop polls ((alookup offsets thread_id).getD 0)
              false).trace_started).output) := by
  refine ⟨rfl, rfl, rfl, ?_⟩
  intro h
  subst h
  exact ⟨rfl, rfl⟩

/-- Witness for C4: an executor failure on a thread with stored offset 0;
the offsets map is unchanged, the call reports failure, and the final
drain ran. -/
theorem C4_witness :
    (run_agent [("t", 0)] "t" true [] [msgUser] (.err "boom")).offsets
        = [("t", 0)] ∧
    (run_agent [("t", 0)] "t" true [] [msgUser] (.err "boom")).errored
        = true ∧
    (run_agent [("t", 0)] "t" true [] [msgUser] (.err "boom")).finalDrained
        = true :=
  ⟨(C4_executor_failure [("t", 0)] "t" true [] [msgUser] "boom").1,
   (C4_executor_failure [("t", 0)] "t" true [] [msgUser] "boom").2.1,
   ((C4_executor_failure [("t", 0)] "t" true [] [msgUser] "boom").2.2.2 rfl).1⟩

/-- C5: across any contract-respecting sequence of successful dispatches
on one fresh thread: after every dispatch (every prefix of the sequence)
the stored read-offset equals the thread's total message count after
that dispatch; those totals never decrease along the sequence (no clear
occurs); and every message index is consumed by the drains at most once
over the whole sequence. -/
theorem C5_offset_invariant (thread_id : String) (ds : List Dispatch)
    (h : SeqOK 0 ds) :
    (∀ ds1 d ds2, ds = ds1 ++ d :: ds2 →
      (alookup (runSeq thread_id [] (ds1 ++ [d])).1 thread_id).getD 0
          = (d.finalMsgs.length : Int)) ∧
    (∀ ds1 d d' ds2, ds = ds1 ++ d :: d' :: ds2 →
      d.finalMsgs.length ≤ d'.finalMsgs.length) ∧
    (runSeq thread_id [] ds).2.Nodup := by
  refine ⟨?_, ?_, ?_⟩
  · intro ds1 d ds2 hsplit
    subst hsplit
    obtain ⟨h1, h2⟩ := seqOK_append 0 ds1 (d :: ds2) h
    obtain ⟨hd, _⟩ := h2
    have hok : SeqOK 0 (ds1 ++ [d]) :=
      seqOK_append_of 0 ds1 [d] h1 ⟨hd, trivial⟩
    have hs := (runSeq_spec thread_id (ds1 ++ [d]) [] 0 rfl hok).1
    rwa [lastTotal_append, lastTotal_singleton] at hs
  · intro ds1 d d' ds2 hsplit
    subst hsplit
    obtain ⟨_, h2⟩ := seqOK_append 0 ds1 (d :: d' :: ds2) h
    obtain ⟨_, hd', _⟩ := h2
    obtain ⟨_, _, hchain⟩ := hd'
    have hle := chain_le_getLastD _ _ hchain
    rwa [getLastD_concat] at hle
  · exact (runSeq_spec thread_id ds [] 0 rfl h).2.2.1

/-- Witness for C5 on the two-dispatch scenario `exD1; exD2` (totals 2
then 4): the offset after the first dispatch is 2, totals are
nondecreasing, and no index is consumed twice. -/
theorem C5_witness :
    SeqOK 0 [exD1, exD2] ∧
    (alookup (runSeq "t" [] ([] ++ [exD1])).1 "t").getD 0
        = (exD1.finalMsgs.length : Int) ∧
    exD1.finalMsgs.length ≤ exD2.finalMsgs.length ∧
    (runSeq "t" [] [exD1, exD2]).2.Nodup := by
  have hseq : SeqOK 0 [exD1, exD2] := by
    refine ⟨⟨rfl, by decide, ?_⟩, ⟨rfl, by decide, ?_⟩, trivial⟩ <;>
      norm_num [exD1, exD2, List.chain_cons]
  have hthm := C5_offset_invariant "t" [exD1, exD2] hseq
  exact ⟨hseq, hthm.1 [] exD1 [exD2] rfl,
    hthm.2.1 [] exD1 exD2 [] rfl, hthm.2.2⟩

end LangPilot
